import Mathlib

/-!
Verification of the usage-output scraper and temporal formatter of
claude-code-usage-bar.

The development shallowly embeds the two core source files:

- update_usage.py: the function parse_usage_output (regex scraping of the
  usage text into percentages and reset data), the cache merge
  update_usage_file, and the control flow of main around an already
  fetched capture;
- statusbar.py: the pure formatting helpers time_until,
  format_session_reset and parse_datetime.

Strings are modelled as List Char.  The handful of regular expressions in
parse_usage_output are embedded as deterministic scanning functions: for
each pattern the lazy/greedy backtracking of Python re collapses to a
first-match scan with maximal character-class runs, because in every
pattern a reduced greedy run would leave a character of the same class at
the position of the next mandatory literal.  Character classes are
modelled at ASCII precision (the program only ever feeds ASCII text plus
a few fixed symbols to these classes).

Python datetime values inside the statusbar formatter are modelled by
their offset on the timeline in seconds (an order- and
difference-preserving view of datetime; clock fields are recovered by the
usual mod arithmetic with the epoch aligned to midnight).  The parser
side, which constructs and compares calendar datetimes, models them as an
explicit record with Python's field-lexicographic comparison.
-/

namespace UsageBar

/-! ## Character helpers -/

/-- ASCII decimal digit test, the embedding of the regex class d. -/
def isDig (c : Char) : Bool := 48 ≤ c.toNat && c.toNat ≤ 57

/-- ASCII whitespace test, the embedding of the regex class s. -/
def isSpc (c : Char) : Bool :=
  c = ' ' || c = '\t' || c = '\n' || c = '\r' || c.toNat = 11 || c.toNat = 12

/-- ASCII letter test, the embedding of the regex class A-Za-z. -/
def isAlph (c : Char) : Bool :=
  (65 ≤ c.toNat && c.toNat ≤ 90) || (97 ≤ c.toNat && c.toNat ≤ 122)

/-- ASCII lower-casing, the embedding of str.lower and of re.IGNORECASE. -/
def low (c : Char) : Char :=
  if 65 ≤ c.toNat && c.toNat ≤ 90 then Char.ofNat (c.toNat + 32) else c

/-- Numeric value of a digit character. -/
def digitVal (c : Char) : Nat := c.toNat - 48

/-- Value of a digit string, the embedding of Python int on a digit token. -/
def digitsToNat (ds : List Char) : Nat :=
  ds.foldl (fun a c => a * 10 + digitVal c) 0

/-- Match a literal case-insensitively at the head of the input; on success
return the rest of the input. -/
def eatCI : List Char → List Char → Option (List Char)
  | [], rest => some rest
  | _ :: _, [] => none
  | p :: ps, c :: cs => if low c = low p then eatCI ps cs else none

/-- Find the first case-insensitive occurrence of a literal; return the
suffix that follows it.  Embeds the leading literal of a re.search with
re.IGNORECASE. -/
def findCI (lit : List Char) : List Char → Option (List Char)
  | [] => eatCI lit []
  | c :: cs =>
    match eatCI lit (c :: cs) with
    | some rest => some rest
    | none => findCI lit cs

/-- Exact sublist-at-the-front test. -/
def isPre : List Char → List Char → Bool
  | [], _ => true
  | _ :: _, [] => false
  | p :: ps, c :: cs => p = c && isPre ps cs

/-- Substring containment, the embedding of the Python in operator on str. -/
def hasSub (pat : List Char) : List Char → Bool
  | [] => pat.isEmpty
  | c :: cs => isPre pat (c :: cs) || hasSub pat cs

/-! ## Scanners for the regular expressions of parse_usage_output -/

/-- Embedding of re.search of a pattern tag(d+)% (the compact markers):
first position holding the tag whose following maximal digit run is
nonempty and immediately followed by a percent sign; the captured value is
that digit run. -/
def compactScan (tag : Char) : List Char → Option Nat
  | [] => none
  | c :: cs =>
    if c = tag then
      let ds := cs.takeWhile isDig
      let rest := cs.dropWhile isDig
      if ds.isEmpty then compactScan tag cs
      else if rest.head? = some '%' then some (digitsToNat ds)
      else compactScan tag cs
    else compactScan tag cs

/-- Embedding of the tail (d+)%[s]*used of the verbose percentage patterns,
searched lazily: first position whose maximal digit run is nonempty,
followed by a percent sign, optional whitespace and the literal used. -/
def pctUsedScan : List Char → Option Nat
  | [] => none
  | c :: cs =>
    let l := c :: cs
    let ds := l.takeWhile isDig
    let rest := l.dropWhile isDig
    if ds.isEmpty then pctUsedScan cs
    else
      match rest with
      | '%' :: r2 =>
        if (eatCI ['u', 's', 'e', 'd'] (r2.dropWhile isSpc)).isSome then
          some (digitsToNat ds)
        else pctUsedScan cs
      | _ => pctUsedScan cs

/-- Test for the am/pm alternation (case-insensitive), as two characters. -/
def isAmPm (a m : Char) : Bool :=
  (low a = 'a' || low a = 'p') && low m = 'm'

/-- Embedding of the time-of-day capture d+(:d+)?(am|pm) at the head of the
input.  The outer digit run is maximal; if a colon follows, the minute run
is mandatory and the suffix must follow it, otherwise the suffix must
follow the hour run directly (matching the backtracking behaviour of the
greedy optional group). -/
def timeTokAt (l : List Char) : Option (List Char) :=
  let d1 := l.takeWhile isDig
  let r1 := l.dropWhile isDig
  if d1.isEmpty then none
  else
    match r1 with
    | ':' :: r2 =>
      let d2 := r2.takeWhile isDig
      let r3 := r2.dropWhile isDig
      if d2.isEmpty then none
      else
        match r3 with
        | a :: m :: _ => if isAmPm a m then some (d1 ++ ':' :: (d2 ++ [a, m])) else none
        | _ => none
    | a :: m :: _ => if isAmPm a m then some (d1 ++ [a, m]) else none
    | _ => none

/-- Consume the optional greedy s of the literal Resets?. -/
def dropS (r1 : List Char) : List Char :=
  match r1 with
  | s :: rest => if low s = 's' then rest else r1
  | [] => r1

/-- Embedding of the session reset search Resets?[s]+(time): first position
matching the literal reset, an optional s, mandatory whitespace and a
time-of-day token; the captured token is returned. -/
def resetTimeScan : List Char → Option (List Char)
  | [] => none
  | c :: cs =>
    match eatCI ['r', 'e', 's', 'e', 't'] (c :: cs) with
    | some r1 =>
      if (((dropS r1).takeWhile isSpc)).isEmpty then resetTimeScan cs
      else
        match timeTokAt ((dropS r1).dropWhile isSpc) with
        | some tok => some tok
        | none => resetTimeScan cs
    | none => resetTimeScan cs

/-- The continuation ,?[s]*(time) after the day digits of the week reset
pattern.  The argument tail is the unconsumed remainder of the maximal
digit run (when the greedy day capture backtracked), rest the text after
the whole run.  A leading digit in tail forbids both the comma and any
whitespace, exactly as in the regex. -/
def tokAfterDay (tail rest : List Char) : Option (List Char) :=
  match tail with
  | [] =>
    let r1 := match rest with
      | ',' :: r => r
      | _ => rest
    timeTokAt (r1.dropWhile isSpc)
  | _ => timeTokAt (tail ++ rest)

/-- Greedy-with-backtracking split of the digit run after the month name
between the day capture and the time capture: longest day first. -/
def daySplitGo : Nat → List Char → List Char → Option (List Char × List Char)
  | 0, _, _ => none
  | k + 1, digs, rest =>
    match tokAfterDay (digs.drop (k + 1)) rest with
    | some tok => some (digs.take (k + 1), tok)
    | none => daySplitGo k digs rest

/-- Embedding of the week reset search
Resets?[s]+([A-Za-z]+[s]+d+),?[s]*(time): returns the captured month
letters, day digits and time token. -/
def weekResetScan : List Char → Option ((List Char × List Char) × List Char)
  | [] => none
  | c :: cs =>
    match eatCI ['r', 'e', 's', 'e', 't'] (c :: cs) with
    | some r1 =>
      if ((dropS r1).takeWhile isSpc).isEmpty then weekResetScan cs
      else
        let r3 := (dropS r1).dropWhile isSpc
        let ltrs := r3.takeWhile isAlph
        let r4 := r3.dropWhile isAlph
        if ltrs.isEmpty then weekResetScan cs
        else
          let sp2 := r4.takeWhile isSpc
          let r5 := r4.dropWhile isSpc
          if sp2.isEmpty then weekResetScan cs
          else
            let digs := r5.takeWhile isDig
            let r6 := r5.dropWhile isDig
            if digs.isEmpty then weekResetScan cs
            else
              match daySplitGo digs.length digs r6 with
              | some (day, tok) => some ((ltrs, day), tok)
              | none => weekResetScan cs
    | none => weekResetScan cs

/-! ## Calendar datetimes (parser side) -/

/-- A Python datetime at second precision (the parser never produces
microseconds). -/
structure DateTime where
  year : Nat
  month : Nat
  day : Nat
  hour : Nat
  minute : Nat
  second : Nat
deriving DecidableEq

/-- Python datetime comparison: field-lexicographic. -/
def DateTime.ltb (a b : DateTime) : Bool :=
  if a.year ≠ b.year then decide (a.year < b.year)
  else if a.month ≠ b.month then decide (a.month < b.month)
  else if a.day ≠ b.day then decide (a.day < b.day)
  else if a.hour ≠ b.hour then decide (a.hour < b.hour)
  else if a.minute ≠ b.minute then decide (a.minute < b.minute)
  else decide (a.second < b.second)

/-- Non-strict datetime comparison, by totality of the strict one. -/
def DateTime.leb (a b : DateTime) : Bool := !DateTime.ltb b a

/-- Gregorian leap-year rule, as validated by the datetime constructor. -/
def isLeap (y : Nat) : Bool := y % 4 = 0 && (y % 100 ≠ 0 || y % 400 = 0)

/-- Length of a month in a given year. -/
def daysInMonth (y m : Nat) : Nat :=
  if m = 2 then (if isLeap y then 29 else 28)
  else if m = 4 ∨ m = 6 ∨ m = 9 ∨ m = 11 then 30 else 31

/-- The checked datetime constructor: embeds datetime(y, mo, d, h, mi),
which raises ValueError (caught by the surrounding try) outside these
ranges. -/
def mkDateTime (y mo d h mi s : Nat) : Option DateTime :=
  if 1 ≤ mo ∧ mo ≤ 12 ∧ 1 ≤ d ∧ d ≤ daysInMonth y mo ∧ h ≤ 23 ∧ mi ≤ 59 ∧ s ≤ 59 then
    some ⟨y, mo, d, h, mi, s⟩
  else none

/-- Zero-padding to two places, the embedding of the format spec 02d. -/
def pad2 (n : Nat) : String := if n < 10 then "0" ++ toString n else toString n

/-- Zero-padding to four places, as used for the year by isoformat. -/
def pad4 (n : Nat) : String :=
  if n < 10 then "000" ++ toString n
  else if n < 100 then "00" ++ toString n
  else if n < 1000 then "0" ++ toString n
  else toString n

/-- Embedding of datetime.isoformat for a microsecond-free value. -/
def DateTime.isoformat (t : DateTime) : String :=
  pad4 t.year ++ "-" ++ pad2 t.month ++ "-" ++ pad2 t.day ++ "T" ++
    pad2 t.hour ++ ":" ++ pad2 t.minute ++ ":" ++ pad2 t.second

/-! ## Token conversions of parse_usage_output -/

/-- Session reset token to 24-hour hour (update_usage.py lines 91-101):
take the digits before the colon (or the leading digits), add 12 for a
non-12 pm hour, map a 12 am hour to 0.  Minutes are not extracted. -/
def sessionHourOfToken (tokRaw : List Char) : Nat :=
  let tk := tokRaw.map low
  let hour :=
    if tk.contains ':' then digitsToNat (tk.takeWhile (· ≠ ':'))
    else digitsToNat (tk.takeWhile isDig)
  if hasSub ['p', 'm'] tk && hour ≠ 12 then hour + 12
  else if hasSub ['a', 'm'] tk && hour = 12 then 0
  else hour

/-- Strip trailing a, p, m characters, the embedding of rstrip('apm'). -/
def rstripAPM (l : List Char) : List Char :=
  (l.reverse.dropWhile (fun c => c = 'a' || c = 'p' || c = 'm')).reverse

/-- Week reset token to (hour, minute) (update_usage.py lines 119-134):
with a colon, split the apm-stripped token on the colon for hour and
minute; without one, take the leading digits and minute 0; then the same
12-hour adjustment on the unstripped token. -/
def weekTimeOfToken (tokRaw : List Char) : Nat × Nat :=
  let tk := tokRaw.map low
  let (hour, minute) :=
    if tk.contains ':' then
      let stripped := rstripAPM tk
      let h := digitsToNat (stripped.takeWhile (· ≠ ':'))
      let m := match stripped.dropWhile (· ≠ ':') with
        | _ :: rest => digitsToNat (rest.takeWhile (· ≠ ':'))
        | [] => 0
      (h, m)
    else (digitsToNat (tk.takeWhile isDig), 0)
  if hasSub ['p', 'm'] tk && hour ≠ 12 then (hour + 12, minute)
  else if hasSub ['a', 'm'] tk && hour = 12 then (0, minute)
  else (hour, minute)

/-- Month abbreviations recognised by strptime's directive b (C locale),
lowercased. -/
def monthNames : List (List Char) :=
  [['j','a','n'], ['f','e','b'], ['m','a','r'], ['a','p','r'],
   ['m','a','y'], ['j','u','n'], ['j','u','l'], ['a','u','g'],
   ['s','e','p'], ['o','c','t'], ['n','o','v'], ['d','e','c']]

def monthFind : Nat → List (List Char) → List Char → Option Nat
  | _, [], _ => none
  | i, m :: ms, s => if s = m then some i else monthFind (i + 1) ms s

/-- Month number of a name, case-insensitively; none embeds the ValueError
of strptime on an unrecognised month token. -/
def monthOf (s : List Char) : Option Nat := monthFind 1 monthNames (s.map low)

/-- Day-of-month capture of strptime's directive d: one digit 1-9 or two
digits with value 1-31; anything else embeds the ValueError. -/
def dayOf (ds : List Char) : Option Nat :=
  match ds with
  | [c] => if 49 ≤ c.toNat ∧ c.toNat ≤ 57 then some (digitVal c) else none
  | [c1, c2] =>
    let v := digitsToNat [c1, c2]
    if 1 ≤ v ∧ v ≤ 31 then some v else none
  | _ => none

/-- Resolution of the week reset (update_usage.py lines 136-147): build the
target in the current year; if it compares strictly before now, rebuild it
in the next year.  Either construction can fail (ValueError caught by the
try block), yielding none. -/
def weekTarget (now : DateTime) (mo d h mi : Nat) : Option DateTime :=
  match mkDateTime now.year mo d h mi 0 with
  | none => none
  | some t0 =>
    if DateTime.ltb t0 now then mkDateTime (now.year + 1) mo d h mi 0
    else some t0

/-! ## parse_usage_output -/

/-- The dictionary produced by parse_usage_output: exactly the four keys
the function can set, each present or absent.  The week reset is kept as
the resolved instant; update_usage_file stores its isoformat string, as
the Python code does in one step at parse time. -/
structure ParseResult where
  session_percent : Option Nat := none
  session_reset_hour : Option Nat := none
  week_percent : Option Nat := none
  week_reset : Option DateTime := none
deriving DecidableEq

/-- The session percentage search Current session.*?(d+)%[s]*used. -/
def verboseSessionPct (text : List Char) : Option Nat :=
  match findCI ("current session".data) text with
  | some rest => pctUsedScan rest
  | none => none

/-- The session reset-token search Current session.*?Resets?[s]+(time). -/
def sessionTokenOf (text : List Char) : Option (List Char) :=
  match findCI ("current session".data) text with
  | some rest => resetTimeScan rest
  | none => none

/-- The week percentage search Current week.*?(d+)%[s]*used. -/
def verboseWeekPct (text : List Char) : Option Nat :=
  match findCI ("current week".data) text with
  | some rest => pctUsedScan rest
  | none => none

/-- The week reset extraction: regex search, strptime of the month/day
capture, time conversion and rollover resolution. -/
def verboseWeekReset (text : List Char) (now : DateTime) : Option DateTime :=
  match findCI ("current week".data) text with
  | none => none
  | some rest =>
    match weekResetScan rest with
    | none => none
    | some ((ms, ds), tok) =>
      match monthOf ms, dayOf ds with
      | some mo, some d =>
        if d ≤ daysInMonth 1900 mo then
          weekTarget now mo d (weekTimeOfToken tok).1 (weekTimeOfToken tok).2
        else none
      | _, _ => none

/-- Embedding of parse_usage_output, with the ambient datetime.now()
passed explicitly.  The compact markers are tried first and, when either
is present, the verbose extraction is skipped. -/
def parse_usage_output (text : List Char) (now : DateTime) : ParseResult :=
  let s := compactScan '📊' text
  let w := compactScan '📆' text
  if s.isSome || w.isSome then
    { session_percent := s, week_percent := w }
  else
    { session_percent := verboseSessionPct text
      session_reset_hour := (sessionTokenOf text).map sessionHourOfToken
      week_percent := verboseWeekPct text
      week_reset := verboseWeekReset text now }

/-- Emptiness of the parsed dictionary, the Python truth test not data. -/
def ParseResult.isEmpty (d : ParseResult) : Bool :=
  d.session_percent.isNone && d.session_reset_hour.isNone &&
    d.week_percent.isNone && d.week_reset.isNone

/-! ## Cache merge and updater control flow -/

/-- JSON scalar values stored in the usage cache. -/
inductive JVal where
  | num : Nat → JVal
  | str : String → JVal
deriving DecidableEq

/-- The on-disk cache, a JSON object: key to optional value. -/
def Cache := String → Option JVal

/-- Embedding of update_usage_file on an already loaded cache: each of the
four data keys overwrites only when present in the parse result, then
last_updated is stamped with the ambient time. -/
def update_usage_file (d : ParseResult) (ts : DateTime) (c : Cache) : Cache :=
  fun k =>
    if k = "last_updated" then some (.str ts.isoformat)
    else if k = "session_percent" then
      match d.session_percent with | some v => some (.num v) | none => c k
    else if k = "session_reset_hour" then
      match d.session_reset_hour with | some v => some (.num v) | none => c k
    else if k = "week_percent" then
      match d.week_percent with | some v => some (.num v) | none => c k
    else if k = "week_reset" then
      match d.week_reset with | some t => some (.str t.isoformat) | none => c k
    else c k

/-- Outcome of fetch_usage_via_pty as seen by main: an error dictionary or
a parse result. -/
inductive FetchOutcome where
  | err : String → FetchOutcome
  | ok : ParseResult → FetchOutcome

/-- Embedding of the decision logic of main in update_usage.py: an error
or an empty parse exits 1 without touching the cache; otherwise the cache
is merged and the run exits 0. -/
def mainRun (f : FetchOutcome) (ts : DateTime) (c : Cache) : Nat × Cache :=
  match f with
  | .err _ => (1, c)
  | .ok d => if d.isEmpty then (1, c) else (0, update_usage_file d ts c)

/-! ## Statusbar formatter (statusbar.py)

Instants on the display side are modelled as their timeline offset in
seconds; datetime subtraction and comparison are exactly subtraction and
comparison of these offsets, and the clock fields are recovered by mod
arithmetic (the epoch is midnight-aligned).
-/

/-- Days before the given month in the given year. -/
def daysBeforeMonth (y m : Nat) : Nat :=
  (List.range (m - 1)).foldl (fun a i => a + daysInMonth y (i + 1)) 0

/-- Proleptic-Gregorian ordinal of a date, the embedding of
datetime.toordinal. -/
def toordinal (y m d : Nat) : Nat :=
  365 * (y - 1) + (y - 1) / 4 + (y - 1) / 400 - (y - 1) / 100 +
    daysBeforeMonth y m + d

/-- Timeline offset in seconds of a datetime. -/
def toTimelineSec (t : DateTime) : Int :=
  (toordinal t.year t.month t.day : Int) * 86400 +
    t.hour * 3600 + t.minute * 60 + t.second

/-- Embedding of time_until: a missing target renders the placeholder, a
target at or before now renders the zero marker, otherwise the positive
difference is truncated to whole minutes and rendered coarsely. -/
def time_until (target : Option Int) (now : Int) : String :=
  match target with
  | none => "?"
  | some t =>
    if t ≤ now then "0m"
    else
      let totalMinutes := (t - now).toNat / 60
      let totalHours := totalMinutes / 60
      let days := totalHours / 24
      if 0 < days then toString days ++ "d" ++ toString (totalHours % 24) ++ "h"
      else if 0 < totalHours then
        toString totalHours ++ "h" ++ pad2 (totalMinutes % 60) ++ "m"
      else toString totalMinutes ++ "m"

/-- The whole-minute count time_until works from; 0 whenever the target is
missing or not in the future. -/
def timeUntilMinutes (t now : Int) : Nat :=
  if t ≤ now then 0 else (t - now).toNat / 60

/-- Rendering of a whole-minute duration, the arithmetic-free tail of
time_until. -/
def renderDur (m : Nat) : String :=
  let h := m / 60
  let d := h / 24
  if 0 < d then toString d ++ "d" ++ toString (h % 24) ++ "h"
  else if 0 < h then toString h ++ "h" ++ pad2 (m % 60) ++ "m"
  else toString m ++ "m"

/-- Embedding of format_session_reset: clock rendering of the target, with
the placeholder for a missing one. -/
def format_session_reset (target : Option Int) (fmt : Nat) : String :=
  match target with
  | none => "?"
  | some t =>
    let hour := ((t % 86400) / 3600).toNat
    let minute := ((t % 3600) / 60).toNat
    if fmt = 24 then
      if minute = 0 then toString hour ++ "h" else toString hour ++ ":" ++ pad2 minute
    else
      let ap := if hour < 12 then "am" else "pm"
      let h0 := hour % 12
      let h12 := if h0 = 0 then 12 else h0
      if minute = 0 then toString h12 ++ ap
      else toString h12 ++ ":" ++ pad2 minute ++ ap

/-- ISO-8601 parse of the strings the cache holds:
yyyy-mm-dd, optionally a separator and hh:mm, optionally :ss, optionally a
fractional or offset tail (dropped, as tzinfo is stripped by the caller). -/
def isoParse (l : List Char) : Option DateTime :=
  match l with
  | y1 :: y2 :: y3 :: y4 :: '-' :: m1 :: m2 :: '-' :: d1 :: d2 :: rest =>
    if [y1, y2, y3, y4, m1, m2, d1, d2].all isDig then
      let y := digitsToNat [y1, y2, y3, y4]
      let mo := digitsToNat [m1, m2]
      let d := digitsToNat [d1, d2]
      match rest with
      | [] => mkDateTime y mo d 0 0 0
      | _ :: h1 :: h2 :: ':' :: mi1 :: mi2 :: rest2 =>
        if [h1, h2, mi1, mi2].all isDig then
          let h := digitsToNat [h1, h2]
          let mi := digitsToNat [mi1, mi2]
          match rest2 with
          | ':' :: s1 :: s2 :: rest3 =>
            if ([s1, s2].all isDig) &&
                (rest3.isEmpty || rest3.head? = some '+' || rest3.head? = some '-'
                  || rest3.head? = some '.') then
              mkDateTime y mo d h mi (digitsToNat [s1, s2])
            else none
          | [] => mkDateTime y mo d h mi 0
          | r =>
            if r.head? = some '+' || r.head? = some '-' then mkDateTime y mo d h mi 0
            else none
        else none
      | _ => none
    else none
  | _ => none

/-- Embedding of parse_datetime: a missing or empty value yields none, a
string is parsed as ISO-8601 with any Z or offset suffix dropped (the
Python code strips tzinfo after parsing, keeping the wall-clock fields). -/
def parse_datetime (v : Option JVal) : Option Int :=
  match v with
  | some (.str s) =>
    if s = "" then none
    else (isoParse ((s.replace "Z" "+00:00").data)).map toTimelineSec
  | _ => none

/-! ## Helper lemmas -/

theorem takeWhile_app_all {p : Char → Bool} {xs ys : List Char}
    (hx : ∀ c ∈ xs, p c = true) (hy : ∀ y, ys.head? = some y → p y = false) :
    (xs ++ ys).takeWhile p = xs ∧ (xs ++ ys).dropWhile p = ys := by
  induction xs with
  | nil =>
    simp only [List.nil_append]
    cases ys with
    | nil => simp
    | cons y ys' =>
      have hpy := hy y rfl
      simp [List.takeWhile_cons, List.dropWhile_cons, hpy]
  | cons x xs' ih =>
    have hpx := hx x (by simp)
    have hx' : ∀ c ∈ xs', p c = true := fun c hc => hx c (by simp [hc])
    obtain ⟨h1, h2⟩ := ih hx'
    simp [List.takeWhile_cons, List.dropWhile_cons, hpx, h1, h2]

theorem digit_le (c : Char) (h : isDig c = true) : c.toNat ≤ 57 := by
  unfold isDig at h
  simp only [Bool.and_eq_true, decide_eq_true_eq] at h
  exact h.2

/-- A character whose lowering is a or p is not a digit. -/
theorem amLetter_not_dig (a : Char) (h : (low a = 'a' || low a = 'p') = true) :
    isDig a = false := by
  by_contra hne
  have hd : isDig a = true := by
    cases hdig : isDig a with
    | false => exact absurd hdig hne
    | true => rfl
  have hv : 48 ≤ a.toNat ∧ a.toNat ≤ 57 := by
    unfold isDig at hd
    simpa using hd
  have hlow : low a = a := by
    unfold low
    rw [if_neg]
    simp only [Bool.and_eq_true, decide_eq_true_eq, not_and]
    omega
  rw [hlow] at h
  simp only [Bool.or_eq_true, decide_eq_true_eq] at h
  rcases h with h | h
  · have hv := congrArg Char.toNat h
    simp at hv
    omega
  · have hv := congrArg Char.toNat h
    simp at hv
    omega

/-! ## Decimal rendering for the synthetic compact inputs -/

/-- Character of a decimal digit. -/
def dChar (d : Nat) : Char := Char.ofNat (48 + d)

/-- Decimal rendering of a natural number as characters. -/
def natToChars (n : Nat) : List Char :=
  if n = 0 then ['0'] else (Nat.digits 10 n).reverse.map dChar

theorem isDig_dChar {d : Nat} (h : d < 10) : isDig (dChar d) = true := by
  interval_cases d <;> decide

theorem digitVal_dChar {d : Nat} (h : d < 10) : digitVal (dChar d) = d := by
  interval_cases d <;> decide

theorem foldl_digits (L : List Nat) (a : Nat) (h : ∀ d ∈ L, d < 10) :
    (L.reverse.map dChar).foldl (fun x c => x * 10 + digitVal c) a
      = a * 10 ^ L.length + Nat.ofDigits 10 L := by
  induction L generalizing a with
  | nil => simp
  | cons d L ih =>
    have hd : d < 10 := h d (by simp)
    have hL : ∀ x ∈ L, x < 10 := fun x hx => h x (by simp [hx])
    simp only [List.reverse_cons, List.map_append, List.foldl_append, ih a hL,
      List.map_cons, List.foldl_cons, List.map_nil, List.foldl_nil,
      digitVal_dChar hd, Nat.ofDigits_cons, List.length_cons]
    ring

theorem digitsToNat_natToChars (n : Nat) : digitsToNat (natToChars n) = n := by
  by_cases h : n = 0
  · subst h; decide
  · unfold natToChars digitsToNat
    rw [if_neg h,
      foldl_digits _ 0 (fun d hd => Nat.digits_lt_base (by norm_num) hd)]
    simp [Nat.ofDigits_digits]

theorem natToChars_digits (n : Nat) : ∀ c ∈ natToChars n, isDig c = true := by
  intro c hc
  unfold natToChars at hc
  by_cases h : n = 0
  · rw [if_pos h] at hc
    simp only [List.mem_singleton] at hc
    subst hc; decide
  · rw [if_neg h] at hc
    simp only [List.mem_map, List.mem_reverse] at hc
    obtain ⟨d, hd, rfl⟩ := hc
    exact isDig_dChar (Nat.digits_lt_base (by norm_num) hd)

theorem natToChars_ne_nil (n : Nat) : natToChars n ≠ [] := by
  unfold natToChars
  by_cases h : n = 0
  · simp [h]
  · rw [if_neg h]
    simp [Nat.digits_ne_nil_iff_ne_zero, h]

theorem natToChars_not_mem (n : Nat) (tag : Char) (htag : 57 < tag.toNat) :
    tag ∉ natToChars n := by
  intro hm
  have := digit_le tag (natToChars_digits n tag hm)
  omega

/-! ## Compact-scan lemmas -/

theorem compactScan_skip (tag : Char) (xs ys : List Char) (h : tag ∉ xs) :
    compactScan tag (xs ++ ys) = compactScan tag ys := by
  induction xs with
  | nil => rfl
  | cons x xs' ih =>
    have hx : ¬x = tag := fun e => h (by simp [e])
    rw [List.cons_append]
    unfold compactScan
    rw [if_neg hx]
    rw [ih (fun hm => h (by simp [hm]))]
    cases ys <;> rfl

theorem compactScan_hit (tag : Char) (ds rest : List Char) (hne : ds ≠ [])
    (hds : ∀ c ∈ ds, isDig c = true) (hr : rest.head? = some '%') :
    compactScan tag (tag :: (ds ++ rest)) = some (digitsToNat ds) := by
  have hhd : ∀ y, rest.head? = some y → isDig y = false := by
    intro y hy
    rw [hr] at hy
    cases hy
    decide
  obtain ⟨htw, hdw⟩ := takeWhile_app_all hds hhd
  unfold compactScan
  rw [if_pos rfl]
  simp only [htw, hdw, hr]
  rw [if_neg (by simp [hne])]
  simp

/-! ## Shape of the captured session time token -/

/-- Exactly two characters forming the am/pm suffix. -/
def ampmOnly : List Char → Bool
  | [a, m] => isAmPm a m
  | _ => false

/-- Shape of a time token captured by the session reset pattern: a
nonempty digit run, an optional colon with a nonempty digit run, and a
mandatory am/pm suffix. -/
def tokenShape (tk : List Char) : Bool :=
  !(tk.takeWhile isDig).isEmpty &&
    (let r1 := tk.dropWhile isDig
     if r1.head? = some ':' then
       !(r1.tail.takeWhile isDig).isEmpty && ampmOnly (r1.tail.dropWhile isDig)
     else ampmOnly r1)

theorem isAmPm_not_dig {a m : Char} (h : isAmPm a m = true) : isDig a = false := by
  unfold isAmPm at h
  simp only [Bool.and_eq_true] at h
  exact amLetter_not_dig a h.1

theorem timeTokAt_shape (l tok : List Char) (h : timeTokAt l = some tok) :
    tokenShape tok = true := by
  unfold timeTokAt at h
  by_cases h1 : (l.takeWhile isDig).isEmpty
  · rw [if_pos h1] at h
    cases h
  · rw [if_neg h1] at h
    have hd1 : ∀ c ∈ l.takeWhile isDig, isDig c = true :=
      fun c hc => List.mem_takeWhile_imp hc
    split at h
    · -- leading colon: mandatory minute run then the am/pm suffix
      rename_i r2 heq
      by_cases h2 : (r2.takeWhile isDig).isEmpty
      · rw [if_pos h2] at h
        cases h
      · rw [if_neg h2] at h
        have hd2 : ∀ c ∈ r2.takeWhile isDig, isDig c = true :=
          fun c hc => List.mem_takeWhile_imp hc
        split at h
        · rename_i a m rest heq3
          split at h
          · rename_i ham
            cases h
            have hna : isDig a = false := isAmPm_not_dig ham
            have inner := @takeWhile_app_all isDig (r2.takeWhile isDig)
              [a, m] hd2 (by intro y hy; cases hy; exact hna)
            have outer := @takeWhile_app_all isDig (l.takeWhile isDig)
              (':' :: (r2.takeWhile isDig ++ [a, m])) hd1
              (by intro y hy; cases hy; decide)
            unfold tokenShape
            simp only [outer.1, outer.2, List.head?_cons, List.tail_cons]
            rw [Bool.and_eq_true]
            refine ⟨by simp [h1], ?_⟩
            rw [if_pos trivial]
            simp only [inner.1, inner.2]
            simp [h2, ampmOnly, ham]
          · cases h
        · cases h
    · -- no colon: the am/pm suffix follows the hour run directly
      rename_i a m rest heq hg
      split at h
      · rename_i ham
        cases h
        have hna : isDig a = false := isAmPm_not_dig ham
        have outer := @takeWhile_app_all isDig (l.takeWhile isDig)
          [a, m] hd1 (by intro y hy; cases hy; exact hna)
        have hac : a ≠ ':' := by
          intro e
          subst e
          simp [isAmPm, low] at ham
        unfold tokenShape
        simp only [outer.1, outer.2]
        rw [Bool.and_eq_true]
        refine ⟨by simp [h1], ?_⟩
        rw [if_neg (by simp [hac])]
        simp [ampmOnly, ham]
      · cases h
    · cases h

theorem resetTimeScan_shape (l tok : List Char)
    (h : resetTimeScan l = some tok) : tokenShape tok = true := by
  induction l with
  | nil => cases h
  | cons c cs ih =>
    unfold resetTimeScan at h
    split at h
    · split at h
      · exact ih h
      · split at h
        · rename_i tok' htk
          cases h
          exact timeTokAt_shape _ _ htk
        · exact ih h
    · exact ih h

/-! ## Rollover lemma for the week target -/

theorem mkDateTime_inv {y mo d h mi s : Nat} {t : DateTime}
    (he : mkDateTime y mo d h mi s = some t) : t = ⟨y, mo, d, h, mi, s⟩ := by
  unfold mkDateTime at he
  split at he
  · cases he; rfl
  · cases he

theorem weekTarget_after (now : DateTime) (mo d h mi : Nat) (t : DateTime)
    (ht : weekTarget now mo d h mi = some t) : DateTime.leb now t = true := by
  unfold weekTarget at ht
  split at ht
  · cases ht
  · rename_i t0 h0
    split at ht
    · have he := mkDateTime_inv ht
      subst he
      unfold DateTime.leb DateTime.ltb
      simp
    · rename_i hlt
      cases ht
      unfold DateTime.leb
      simp only [Bool.not_eq_true] at hlt
      simp [hlt]

/-! ## Merge never writes the session_reset key -/

theorem update_keeps_session_reset (d : ParseResult) (ts : DateTime) (c : Cache) :
    update_usage_file d ts c "session_reset" = c "session_reset" := rfl

/-! ## Claim C4: compact format -/

/-- Synthetic compact capture carrying two percentages. -/
def compactText (p1 p2 : Nat) : List Char :=
  '📊' :: (natToChars p1 ++ ('%' :: ' ' :: '|' :: ' ' :: '📆' ::
    (natToChars p2 ++ ['%'])))

/-- C4: for every pair of integers 0-100, parsing a string holding the
session marker immediately followed by the first integer and a percent
sign, and the week marker likewise with the second, yields exactly those
two percentages and no reset fields; and whenever either compact marker
matches, the parser returns at once with only the fields found, never
attempting verbose extraction. -/
theorem compact_format_parse (p1 p2 : Nat) (h1 : p1 ≤ 100) (h2 : p2 ≤ 100)
    (now : DateTime) :
    parse_usage_output (compactText p1 p2) now =
      { session_percent := some p1, week_percent := some p2 } ∧
    ∀ (text : List Char) (now2 : DateTime),
      ((compactScan '📊' text).isSome || (compactScan '📆' text).isSome) = true →
      parse_usage_output text now2 =
        { session_percent := compactScan '📊' text, session_reset_hour := none,
          week_percent := compactScan '📆' text, week_reset := none } := by
  constructor
  · have e1 : compactScan '📊' (compactText p1 p2) = some p1 := by
      unfold compactText
      rw [compactScan_hit '📊' (natToChars p1)
        ('%' :: ' ' :: '|' :: ' ' :: '📆' :: (natToChars p2 ++ ['%']))
        (natToChars_ne_nil p1) (natToChars_digits p1) rfl]
      rw [digitsToNat_natToChars]
    have e2 : compactScan '📆' (compactText p1 p2) = some p2 := by
      have hre : compactText p1 p2 =
          ('📊' :: (natToChars p1 ++ ['%', ' ', '|', ' '])) ++
            ('📆' :: (natToChars p2 ++ ['%'])) := by
        unfold compactText
        simp
      rw [hre, compactScan_skip]
      · rw [compactScan_hit '📆' (natToChars p2) ['%'] (natToChars_ne_nil p2)
          (natToChars_digits p2) rfl]
        rw [digitsToNat_natToChars]
      · intro hm
        simp only [List.mem_cons, List.mem_append] at hm
        rcases hm with h | h | h
        · exact absurd h (by decide)
        · exact natToChars_not_mem p1 '📆' (by decide) h
        · revert h
          decide
    simp [parse_usage_output, e1, e2]
  · intro text now2 hsw
    simp [parse_usage_output, hsw]

/-- Witness for compact_format_parse at the percentages 16 and 13 and the
compact capture of the specification. -/
theorem compact_format_parse_witness :
    parse_usage_output (compactText 16 13) ⟨2024, 12, 20, 10, 0, 0⟩ =
      { session_percent := some 16, week_percent := some 13 } ∧
    parse_usage_output ("📊16% ⏱️2h30m | 📆13% ⏱️5d21h".data) ⟨2024, 12, 20, 10, 0, 0⟩ =
      { session_percent := some 16, session_reset_hour := none,
        week_percent := some 13, week_reset := none } := by
  constructor
  · exact (compact_format_parse 16 13 (by decide) (by decide) _).1
  · have e := (compact_format_parse 16 13 (by decide) (by decide)
      ⟨2024, 12, 20, 10, 0, 0⟩).2 ("📊16% ⏱️2h30m | 📆13% ⏱️5d21h".data)
      ⟨2024, 12, 20, 10, 0, 0⟩ (by decide)
    rw [e]
    decide

/-! ## Claim C1: end-to-end verbose scenario -/

/-- The verbose capture of the end-to-end scenario. -/
def endToEndText : List Char :=
  ("Current session\n████████ 16% used\nResets 2:30am\n\nCurrent week (all models)\n██ 13% used\nResets Dec 30, 5pm\n").data

/-- The fixed now of the end-to-end scenario. -/
def endToEndNow : DateTime := ⟨2024, 12, 20, 10, 0, 0⟩

/-- C1 counterexample: on the scenario capture the parser yields only the
bare session hour 2 (the :30 is discarded) and never a resolved session
instant, so no session reset equal to 2024-12-21T02:30 is produced; the
merged cache holds no session_reset key at all. -/
theorem end_to_end_no_session_instant :
    (parse_usage_output endToEndText endToEndNow).session_reset_hour = some 2 ∧
    update_usage_file (parse_usage_output endToEndText endToEndNow) endToEndNow
      (fun _ => none) "session_reset" = none ∧
    (parse_usage_output endToEndText endToEndNow).week_reset =
      some ⟨2024, 12, 30, 17, 0, 0⟩ := by
  decide

/-- C1 amended: the scenario capture parses to session_percent 16, the
bare session reset hour 2 (no absolute session instant, minutes
discarded), week_percent 13 and the week reset instant 2024-12-30T17:00. -/
theorem end_to_end_amended :
    parse_usage_output endToEndText endToEndNow =
      { session_percent := some 16, session_reset_hour := some 2,
        week_percent := some 13, week_reset := some ⟨2024, 12, 30, 17, 0, 0⟩ } := by
  decide

/-! ## Claim C2: session reset token handling -/

/-- A session section with a suffix-free H:MM reset time. -/
def noSuffixText : List Char :=
  ("Current session: 16% used. Resets 18:30 today").data

/-- A session section with an am-suffixed H:MM reset time. -/
def withSuffixText : List Char :=
  ("Current session: 16% used. Resets 2:30am").data

/-- A fixed parse time for the C2 inputs. -/
def someNow : DateTime := ⟨2024, 12, 20, 10, 0, 0⟩

/-- C2 counterexample: a session section whose reset token 18:30 lacks the
am/pm suffix produces no session reset data although the section parses,
and on an am-suffixed token the parser returns only the bare hour and the
cache never receives a resolved session instant. -/
theorem session_reset_claim_fails :
    (parse_usage_output noSuffixText someNow).session_percent = some 16 ∧
    (parse_usage_output noSuffixText someNow).session_reset_hour = none ∧
    (parse_usage_output withSuffixText someNow).session_reset_hour = some 2 ∧
    update_usage_file (parse_usage_output withSuffixText someNow) someNow
      (fun _ => none) "session_reset" = none := by
  decide

/-- C2 amended: on the verbose path every captured session reset token has
a mandatory am/pm suffix after the H or H:MM part; the parser converts it
to a 24-hour hour and returns only that bare hour (minutes are discarded),
and no resolved session instant is ever stored. -/
theorem session_reset_token_amended (text tok : List Char)
    (hc : ((compactScan '📊' text).isSome || (compactScan '📆' text).isSome) = false)
    (h : sessionTokenOf text = some tok) (now : DateTime) :
    tokenShape tok = true ∧
    (parse_usage_output text now).session_reset_hour =
      some (sessionHourOfToken tok) ∧
    ∀ (c : Cache) (ts : DateTime),
      update_usage_file (parse_usage_output text now) ts c "session_reset" =
        c "session_reset" := by
  refine ⟨?_, ?_, fun c ts => update_keeps_session_reset _ _ _⟩
  · unfold sessionTokenOf at h
    revert h
    match findCI ("current session".data) text with
    | some rest => exact fun h => resetTimeScan_shape _ _ h
    | none => exact fun h => absurd h (by simp)
  · have e : parse_usage_output text now =
        { session_percent := verboseSessionPct text
          session_reset_hour := (sessionTokenOf text).map sessionHourOfToken
          week_percent := verboseWeekPct text
          week_reset := verboseWeekReset text now } := by
      unfold parse_usage_output
      rw [if_neg (by simp [hc])]
    rw [e]
    show (sessionTokenOf text).map sessionHourOfToken = some (sessionHourOfToken tok)
    rw [h]
    rfl

/-- A session capture used to instantiate session_reset_token_amended. -/
def c2WitnessText : List Char :=
  ("Current session 16% used Resets 2:30am").data

/-- Witness for session_reset_token_amended on a concrete capture. -/
theorem session_reset_token_amended_witness :
    tokenShape ("2:30am".data) = true ∧
    (parse_usage_output c2WitnessText someNow).session_reset_hour = some 2 ∧
    update_usage_file (parse_usage_output c2WitnessText someNow) someNow
      (fun _ => none) "session_reset" = none := by
  obtain ⟨h1, h2, h3⟩ := session_reset_token_amended c2WitnessText ("2:30am".data)
    (by decide) (by decide) someNow
  refine ⟨h1, ?_, ?_⟩
  · rw [h2]
    decide
  · rw [h3 _ _]

/-! ## Claim C3: rollover property of reset instants -/

/-- A week capture whose reset coincides exactly with now. -/
def weekBoundaryText : List Char :=
  ("Current week 13% used Resets Dec 30, 5pm").data

/-- The boundary instant 2024-12-30T17:00. -/
def weekBoundaryNow : DateTime := ⟨2024, 12, 30, 17, 0, 0⟩

/-- C3 counterexample: a week reset resolving exactly to now is stored
unchanged, so the stored instant is not strictly after now; moreover the
session rule of the claim has no instant to apply to, the session reset
being only a bare hour. -/
theorem reset_not_strictly_after :
    (parse_usage_output weekBoundaryText weekBoundaryNow).week_reset =
      some weekBoundaryNow ∧
    DateTime.ltb weekBoundaryNow weekBoundaryNow = false := by
  decide

/-- C3 amended: every week reset instant the parser stores is at or after
now (a current-year resolution strictly before now is resolved against the
next year; one equal to now is kept), and the session reset is never
stored as an instant, only as a bare hour. -/
theorem week_reset_at_or_after (text : List Char) (now t : DateTime)
    (h : (parse_usage_output text now).week_reset = some t) :
    DateTime.leb now t = true ∧
    ∀ (c : Cache) (ts : DateTime),
      update_usage_file (parse_usage_output text now) ts c "session_reset" =
        c "session_reset" := by
  refine ⟨?_, fun c ts => update_keeps_session_reset _ _ _⟩
  unfold parse_usage_output at h
  by_cases hc : ((compactScan '📊' text).isSome || (compactScan '📆' text).isSome) = true
  · rw [if_pos hc] at h
    simp at h
  · rw [if_neg hc] at h
    have h' : verboseWeekReset text now = some t := h
    unfold verboseWeekReset at h'
    split at h'
    · cases h'
    · split at h'
      · cases h'
      · split at h'
        · split at h'
          · exact weekTarget_after _ _ _ _ _ _ h'
          · cases h'
        · cases h'

/-- A week capture whose date has passed, exercising the year rollover. -/
def rolloverText : List Char :=
  ("Current week 13% used Resets Jan 2, 5am").data

/-- A now late in the year, after the January date above. -/
def rolloverNow : DateTime := ⟨2024, 12, 21, 10, 0, 0⟩

/-- Witness for week_reset_at_or_after on the year-rollover capture. -/
theorem week_reset_at_or_after_witness :
    DateTime.leb rolloverNow ⟨2025, 1, 2, 5, 0, 0⟩ = true ∧
    update_usage_file (parse_usage_output rolloverText rolloverNow) rolloverNow
      (fun _ => none) "session_reset" = none := by
  obtain ⟨h1, h2⟩ := week_reset_at_or_after rolloverText rolloverNow
    ⟨2025, 1, 2, 5, 0, 0⟩ (by decide)
  exact ⟨h1, by rw [h2 _ _]⟩

/-! ## Claim C5: merge properties -/

/-- C5: for every snapshot, merging it twice (with the same stamp) equals
merging it once and any key outside the five managed ones is preserved;
and a snapshot without week fields leaves the stored week fields intact. -/
theorem merge_props (d : ParseResult) (ts : DateTime) (c : Cache) (k : String)
    (hk : k ≠ "session_percent" ∧ k ≠ "session_reset_hour" ∧
      k ≠ "week_percent" ∧ k ≠ "week_reset" ∧ k ≠ "last_updated") :
    update_usage_file d ts (update_usage_file d ts c) = update_usage_file d ts c ∧
    (d.week_percent = none →
      update_usage_file d ts c "week_percent" = c "week_percent") ∧
    (d.week_reset = none →
      update_usage_file d ts c "week_reset" = c "week_reset") ∧
    update_usage_file d ts c k = c k := by
  refine ⟨?_, ?_, ?_, ?_⟩
  · funext q
    unfold update_usage_file
    split_ifs <;>
      first
        | rfl
        | (cases d.session_percent <;> rfl)
        | (cases d.session_reset_hour <;> rfl)
        | (cases d.week_percent <;> rfl)
        | (cases d.week_reset <;> rfl)
  · intro hwp
    have e : update_usage_file d ts c "week_percent" =
        match d.week_percent with
        | some v => some (.num v)
        | none => c "week_percent" := rfl
    rw [e, hwp]
  · intro hwr
    have e : update_usage_file d ts c "week_reset" =
        match d.week_reset with
        | some t => some (.str t.isoformat)
        | none => c "week_reset" := rfl
    rw [e, hwr]
  · obtain ⟨k1, k2, k3, k4, k5⟩ := hk
    unfold update_usage_file
    rw [if_neg k5, if_neg k1, if_neg k2, if_neg k3, if_neg k4]

/-- A session-only snapshot for the merge witness. -/
def sessionOnlySnap : ParseResult :=
  { session_percent := some 16, session_reset_hour := some 2 }

/-- A cache holding week data and an unrelated key. -/
def mergeCache : Cache := fun k =>
  if k = "week_percent" then some (.num 13)
  else if k = "custom" then some (.str "keep")
  else none

/-- A merge timestamp for the witness. -/
def mergeStamp : DateTime := ⟨2024, 12, 20, 10, 15, 0⟩

/-- Witness for merge_props on a session-only snapshot over a cache with
week data and an unmanaged key. -/
theorem merge_props_witness :
    update_usage_file sessionOnlySnap mergeStamp
        (update_usage_file sessionOnlySnap mergeStamp mergeCache) =
      update_usage_file sessionOnlySnap mergeStamp mergeCache ∧
    update_usage_file sessionOnlySnap mergeStamp mergeCache "week_percent" =
      mergeCache "week_percent" ∧
    update_usage_file sessionOnlySnap mergeStamp mergeCache "week_reset" =
      mergeCache "week_reset" ∧
    update_usage_file sessionOnlySnap mergeStamp mergeCache "custom" =
      mergeCache "custom" := by
  obtain ⟨h1, h2, h3, h4⟩ :=
    merge_props sessionOnlySnap mergeStamp mergeCache "custom" (by decide)
  exact ⟨h1, h2 rfl, h3 rfl, h4⟩

/-! ## Claim C6: time_until rendering -/

/-- C6: time_until renders the zero marker whenever the target is at or
before now, and otherwise truncates the difference to whole minutes,
derives hours and days by integer division by 60 and 24, and renders
days-hours, hours-minutes or bare minutes accordingly. -/
theorem time_until_rendering (t now : Int) :
    (t ≤ now → time_until (some t) now = "0m") ∧
    (now < t →
      time_until (some t) now =
        (if 0 < (t - now).toNat / 60 / 60 / 24 then
          toString ((t - now).toNat / 60 / 60 / 24) ++ "d" ++
            toString ((t - now).toNat / 60 / 60 % 24) ++ "h"
        else if 0 < (t - now).toNat / 60 / 60 then
          toString ((t - now).toNat / 60 / 60) ++ "h" ++
            pad2 ((t - now).toNat / 60 % 60) ++ "m"
        else toString ((t - now).toNat / 60) ++ "m")) := by
  constructor
  · intro h
    simp [time_until, h]
  · intro h
    have h' : ¬t ≤ now := not_le.mpr h
    simp [time_until, h']

/-- Witness for time_until_rendering across the three regimes and the
zero marker. -/
theorem time_until_rendering_witness :
    time_until (some 100) 200 = "0m" ∧
    time_until (some 3700) 0 = "1h01m" ∧
    time_until (some 90000) 0 = "1d1h" ∧
    time_until (some 600) 0 = "10m" := by
  refine ⟨(time_until_rendering 100 200).1 (by decide), ?_, ?_, ?_⟩
  · rw [(time_until_rendering 3700 0).2 (by decide)]
    decide
  · rw [(time_until_rendering 90000 0).2 (by decide)]
    decide
  · rw [(time_until_rendering 600 0).2 (by decide)]
    decide

/-! ## Claim C7: monotonicity of the remaining duration -/

/-- C7: for a fixed target the whole-minute count behind time_until is
non-increasing as now advances, time_until renders exactly that count, and
any now at or past the target renders the zero marker. -/
theorem time_until_monotone (t n1 n2 : Int) (h : n1 ≤ n2) :
    timeUntilMinutes t n2 ≤ timeUntilMinutes t n1 ∧
    time_until (some t) n1 = renderDur (timeUntilMinutes t n1) ∧
    (t ≤ n2 → time_until (some t) n2 = "0m") := by
  refine ⟨?_, ?_, fun hle => by simp [time_until, hle]⟩
  · unfold timeUntilMinutes
    by_cases a : t ≤ n2
    · rw [if_pos a]
      exact Nat.zero_le _
    · rw [if_neg a]
      have b : ¬t ≤ n1 := fun hb => a (le_trans hb h)
      rw [if_neg b]
      exact Nat.div_le_div_right (by omega)
  · by_cases a : t ≤ n1
    · rw [show time_until (some t) n1 = "0m" from by simp [time_until, a]]
      rw [show timeUntilMinutes t n1 = 0 from by simp [timeUntilMinutes, a]]
      decide
    · rw [show timeUntilMinutes t n1 = (t - n1).toNat / 60 from
        by simp [timeUntilMinutes, a]]
      simp [time_until, renderDur, a]

/-- Witness for time_until_monotone at a fixed target and two nows. -/
theorem time_until_monotone_witness :
    timeUntilMinutes 1000 1000 ≤ timeUntilMinutes 1000 0 ∧
    time_until (some 1000) 0 = renderDur (timeUntilMinutes 1000 0) ∧
    time_until (some 1000) 1000 = "0m" := by
  obtain ⟨a, b, c⟩ := time_until_monotone 1000 0 1000 (by decide)
  exact ⟨a, b, c (by decide)⟩

/-! ## Claim C8: empty parse leaves the cache untouched -/

/-- C8: when the parser extracts nothing, the updater exits with status 1
and the cache it reports is the unchanged input cache, every key
included. -/
theorem empty_parse_preserves_cache (text : List Char) (now ts : DateTime)
    (c : Cache) (h : (parse_usage_output text now).isEmpty = true) :
    mainRun (.ok (parse_usage_output text now)) ts c = (1, c) ∧
    ∀ k, (mainRun (.ok (parse_usage_output text now)) ts c).2 k = c k := by
  have e : mainRun (.ok (parse_usage_output text now)) ts c = (1, c) := by
    show (if (parse_usage_output text now).isEmpty = true then ((1 : Nat), c)
      else (0, update_usage_file (parse_usage_output text now) ts c)) = (1, c)
    rw [if_pos h]
  exact ⟨e, fun k => by rw [e]⟩

/-- A capture the parser finds nothing in. -/
def emptyText : List Char := ("nothing recognisable in this capture").data

/-- A cache with stored week data for the C8 witness. -/
def c8cache : Cache := fun k =>
  if k = "week_percent" then some (.num 13) else none

/-- The C8 witness timestamp. -/
def c8now : DateTime := ⟨2024, 12, 20, 11, 0, 0⟩

/-- Witness for empty_parse_preserves_cache on a concrete empty capture. -/
theorem empty_parse_preserves_cache_witness :
    mainRun (.ok (parse_usage_output emptyText c8now)) c8now c8cache = (1, c8cache) ∧
    (mainRun (.ok (parse_usage_output emptyText c8now)) c8now c8cache).2
      "week_percent" = c8cache "week_percent" := by
  obtain ⟨e, hp⟩ := empty_parse_preserves_cache emptyText c8now c8now c8cache (by decide)
  exact ⟨e, hp "week_percent"⟩

/-! ## Claim C9: 12-hour conversion policy -/

/-- C9: converting a 12-hour token maps 12am to hour 0 and keeps 12pm at
hour 12, in both the session and the week conversion, and the week minute
defaults to 0 when the token has no colon. -/
theorem twelve_hour_conversion (tk : List Char)
    (h : (tk.map low).contains ':' = false) :
    sessionHourOfToken ("12am".data) = 0 ∧
    sessionHourOfToken ("12pm".data) = 12 ∧
    weekTimeOfToken ("12am".data) = (0, 0) ∧
    weekTimeOfToken ("12pm".data) = (12, 0) ∧
    (weekTimeOfToken tk).2 = 0 := by
  refine ⟨by decide, by decide, by decide, by decide, ?_⟩
  simp only [weekTimeOfToken]
  rw [show ((tk.map low).contains ':') = false from h]
  simp only [Bool.false_eq_true, if_false]
  split_ifs <;> rfl

/-- Witness for twelve_hour_conversion, with the colon-free token 5pm. -/
theorem twelve_hour_conversion_witness :
    sessionHourOfToken ("12am".data) = 0 ∧
    sessionHourOfToken ("12pm".data) = 12 ∧
    weekTimeOfToken ("12am".data) = (0, 0) ∧
    weekTimeOfToken ("12pm".data) = (12, 0) ∧
    (weekTimeOfToken ("5pm".data)).2 = 0 :=
  twelve_hour_conversion ("5pm".data) (by decide)

/-! ## Claim C10: the session instant never reaches the display -/

/-- C10: the updater never writes the session_reset key the display reads,
so for a cache without it the merged cache still lacks it and both the
session countdown and the session clock render the placeholder. -/
theorem session_display_placeholder (text : List Char) (now ts : DateTime)
    (c : Cache) (h : c "session_reset" = none) (nowSec : Int) (fmt : Nat) :
    update_usage_file (parse_usage_output text now) ts c "session_reset" = none ∧
    time_until (parse_datetime
      (update_usage_file (parse_usage_output text now) ts c "session_reset"))
      nowSec = "?" ∧
    format_session_reset (parse_datetime
      (update_usage_file (parse_usage_output text now) ts c "session_reset"))
      fmt = "?" := by
  have e : update_usage_file (parse_usage_output text now) ts c "session_reset" =
      none := by
    rw [update_keeps_session_reset, h]
  rw [e]
  exact ⟨rfl, rfl, rfl⟩

/-- A capture whose session data is fully parsed, for the C10 witness. -/
def c10text : List Char :=
  ("Current session 16% used Resets 2:30am ok").data

/-- The C10 witness parse time. -/
def c10now : DateTime := ⟨2024, 12, 20, 12, 0, 0⟩

/-- Witness for session_display_placeholder on a parsed session capture
over an empty cache. -/
theorem session_display_placeholder_witness :
    update_usage_file (parse_usage_output c10text c10now) c10now (fun _ => none)
      "session_reset" = none ∧
    time_until (parse_datetime (update_usage_file (parse_usage_output c10text c10now)
      c10now (fun _ => none) "session_reset")) 0 = "?" ∧
    format_session_reset (parse_datetime (update_usage_file
      (parse_usage_output c10text c10now) c10now (fun _ => none) "session_reset"))
      12 = "?" :=
  session_display_placeholder c10text c10now c10now (fun _ => none) rfl 0 12

end UsageBar
